import Mathlib

/-!
Verification of the Excel ingestion pipeline of the revenue tracker.

The development shallowly embeds the row mapper `importFromExcel`
(src/utils/formatters.ts, the revision that delegates to the loose value
parser), the local batch importer `addEntriesBatch` (src/hooks/useSalesStore.ts)
and the cloud batch importer `addEntriesBatch` (src/hooks/useCloudSalesStore.ts).

Modelling conventions:
* spreadsheet rows are total maps from column names to display strings
  (`sheet_to_json` is called with `defval: ''` and `raw: false`, so every
  cell is a string and a missing cell reads as the empty string, which is
  exactly the falsy behaviour the alias chains rely on);
* JavaScript numbers are modelled as `Option ℚ`, with `none` playing the
  role of `NaN` (no claim depends on binary floating point rounding);
* `Math.round x` is `⌊x + 1/2⌋`, which is its exact semantics on rationals;
* `new Date(y, m, d).toISOString().split('T')[0]` for a month index
  `m ∈ [0,11]` and `d ≥ 1` is the first day of that month advanced by
  `d - 1` calendar days; the host clock is taken to be UTC, so the local
  midnight and the ISO serialisation name the same civil day;
* the nondeterministic `id` and `createdAt` fields (wall clock and random
  suffix) are omitted from the embedded record;
* the functions `parseLooseNumber` and `parseDayNumber` live in
  `src/utils/excel/parse.ts`, which is not part of the sources; they are
  modelled from the specification (§4.2) and marked as such below.
-/

/-- Whitespace test approximating the JavaScript `\s` class and `trim`
(space, tab, newline, carriage return). -/
def isWsChar (c : Char) : Bool :=
  c = ' ' || c = '\t' || c = '\n' || c = '\r'

/-- JavaScript `String.prototype.trim`. -/
def jsTrim (s : String) : String :=
  String.mk ((((s.data.dropWhile isWsChar).reverse).dropWhile isWsChar).reverse)

/-- Value of a run of decimal digit characters. -/
def digitsToNat (cs : List Char) : ℕ :=
  cs.foldl (fun n c => 10 * n + (c.toNat - ('0').toNat)) 0

/-- Substring test on character lists. -/
def hasSubstr (hay sub : List Char) : Bool :=
  match hay with
  | [] => sub.isEmpty
  | _ :: cs => sub.isPrefixOf hay || hasSubstr cs sub

/-- Case-insensitive removal of every occurrence of the currency token
`"PHP"`. -/
def stripPhp : List Char → List Char
  | a :: b :: c :: rest =>
    if a.toLower = 'p' && b.toLower = 'h' && c.toLower = 'p' then
      stripPhp rest
    else
      a :: stripPhp (b :: c :: rest)
  | cs => cs

/-- Rational addition in explicit `mkRat` form (kept executable down to
numerals; `qAdd_eq` below identifies it with `+` on `ℚ`). -/
def qAdd (a b : ℚ) : ℚ := mkRat (a.num * b.den + b.num * a.den) (a.den * b.den)

/-- Rational multiplication in explicit `mkRat` form (`qMul_eq` below
identifies it with `*` on `ℚ`). -/
def qMul (a b : ℚ) : ℚ := mkRat (a.num * b.num) (a.den * b.den)

/-- Rational subtraction in explicit `mkRat` form (`qSub_eq` below
identifies it with `-` on `ℚ`). -/
def qSub (a b : ℚ) : ℚ := mkRat (a.num * b.den - b.num * a.den) (a.den * b.den)

/-- Division of a rational by a natural number in explicit `mkRat` form
(`qDivN_eq` below identifies it with `/` on `ℚ` for non-zero divisors). -/
def qDivN (a : ℚ) (n : ℕ) : ℚ := mkRat a.num (a.den * n)

/-- JavaScript `parseFloat` on an already cleaned string: an optional
sign, an integer digit run, an optional fraction after a dot; trailing
characters are ignored; `none` when no digit was consumed.  The value
`sign * (int + frac / 10 ^ k)` is built as one `mkRat`. -/
def parseFloatChars (cs : List Char) : Option ℚ :=
  let signed : ℤ × List Char :=
    match cs with
    | '-' :: t => (-1, t)
    | '+' :: t => (1, t)
    | _ => (1, cs)
  let intD := signed.2.takeWhile Char.isDigit
  let rest := signed.2.dropWhile Char.isDigit
  let fracD : List Char :=
    match rest with
    | '.' :: t => t.takeWhile Char.isDigit
    | _ => []
  if intD.isEmpty && fracD.isEmpty then none
  else
    some (mkRat
      (signed.1 * ((digitsToNat intD : ℤ) * 10 ^ fracD.length + (digitsToNat fracD : ℤ)))
      (10 ^ fracD.length))

/-- Modelled from the spec: `parseLooseNumber` of `src/utils/excel/parse.ts`
(absent from the sources). Per §4.2: stringify; strip whitespace; strip the
currency symbol and the literal currency token; strip `%`; strip
thousands-separator commas; a parenthesized remainder gets a leading `-`;
parse as floating point; `none` models `NaN`. -/
def parseLooseNumber (s : String) : Option ℚ :=
  let noWs := s.data.filter (fun c => !(isWsChar c))
  let noTok := stripPhp noWs
  let cleaned := noTok.filter (fun c => !(c = '₱' || c = '%' || c = ','))
  let core : List Char :=
    match cleaned with
    | '(' :: rest =>
      if rest ≠ [] && rest.getLast? = some ')' then
        '-' :: rest.dropLast
      else
        cleaned
    | _ => cleaned
  parseFloatChars core

/-- Cell value as seen by the importer: either a display string from the
sheet or the numeric default supplied by a `||` chain. -/
inductive CellVal where
  | str : String → CellVal
  | num : ℚ → CellVal
deriving DecidableEq

/-- Loose parse of a cell value; numeric defaults pass through unchanged
(§4.2: "Numeric inputs pass through unchanged"). -/
def parseLooseNumberVal : CellVal → Option ℚ
  | CellVal.str s => parseLooseNumber s
  | CellVal.num q => some q

/-- Modelled from the spec: `parseDayNumber` of `src/utils/excel/parse.ts`
(absent from the sources). Per §4.2: stringify and trim; empty gives
`none`; read the leading run of at most two digits; `none` when there is
no leading digit or the value falls outside `[1, 31]`. -/
def parseDayNumber (s : String) : Option ℕ :=
  let t := jsTrim s
  if t = "" then none
  else
    let ds := (t.data.takeWhile Char.isDigit).take 2
    if ds.isEmpty then none
    else
      let n := digitsToNat ds
      if 1 ≤ n ∧ n ≤ 31 then some n else none

/-- JavaScript `Math.round`: round half toward positive infinity,
`⌊q + 1/2⌋` (`jsRound_eq` below). -/
def jsRound (q : ℚ) : ℤ := ⌊qAdd q (mkRat 1 2)⌋

/-- `Math.round(x * 100) / 100`, the two-decimal rounding of the
importer (`round2_eq` below). -/
def round2 (q : ℚ) : ℚ := mkRat (jsRound (qMul q 100)) 100

/-- Proleptic Gregorian civil date. -/
structure CivilDate where
  year : ℤ
  month : ℤ
  day : ℤ
deriving DecidableEq

/-- Gregorian leap year test. -/
def isLeapYear (y : ℤ) : Bool :=
  y % 4 = 0 && (y % 100 ≠ 0 || y % 400 = 0)

/-- Length of a month. -/
def daysInMonth (y m : ℤ) : ℤ :=
  if m = 2 then (if isLeapYear y then 29 else 28)
  else if m = 4 || m = 6 || m = 9 || m = 11 then 30
  else 31

/-- Successor day in the civil calendar. -/
def nextDay (c : CivilDate) : CivilDate :=
  if c.day < daysInMonth c.year c.month then ⟨c.year, c.month, c.day + 1⟩
  else if c.month < 12 then ⟨c.year, c.month + 1, 1⟩
  else ⟨c.year + 1, 1, 1⟩

/-- Advance a civil date by a number of days.  `new Date(y, m, d)` with a
month index `m` and `d ≥ 1` denotes the first day of that month advanced
by `d - 1` days (day overflow rolls into later months, as in JavaScript). -/
def addDays (c : CivilDate) : ℕ → CivilDate
  | 0 => c
  | n + 1 => addDays (nextDay c) n

/-- Two-digit zero padded decimal. -/
def pad2 (n : ℤ) : String :=
  (if n.toNat < 10 then ("0") else ("")) ++ Nat.repr n.toNat

/-- Four-digit zero padded decimal. -/
def pad4 (n : ℤ) : String :=
  let s := Nat.repr n.toNat
  String.mk (List.replicate (4 - s.length) '0') ++ s

/-- ISO `YYYY-MM-DD` serialisation, the `toISOString().split('T')[0]` of
the importer under a UTC host clock. -/
def isoDate (c : CivilDate) : String :=
  pad4 c.year ++ "-" ++ pad2 c.month ++ "-" ++ pad2 c.day

/-- Decoded spreadsheet row: column name to display string, absent cells
reading as the empty string. -/
def Row : Type := String → String

/-- First alias whose cell is a non-empty string, else the empty string:
the `row['A'] || row['a'] || ... || ''` chains (a non-empty string is the
only truthy string). -/
def aliasStr (row : Row) : List String → String
  | [] => ""
  | a :: rest => if row a ≠ "" then row a else aliasStr row rest

/-- First alias whose cell is a non-empty string, else the numeric
default: the `row['A'] || ... || 1` chains. -/
def aliasNum (row : Row) (dflt : ℚ) : List String → CellVal
  | [] => CellVal.num dflt
  | a :: rest => if row a ≠ "" then CellVal.str (row a) else aliasNum row dflt rest

/-- Trimmed `Name` cell. -/
def nameCell (row : Row) : String :=
  jsTrim (aliasStr row [("Name"), ("name"), ("NAME")])

/-- Trimmed `Product` cell. -/
def productCell (row : Row) : String :=
  jsTrim (aliasStr row [("Product"), ("product"), ("PRODUCT")])

/-- Trimmed `Branch` cell. -/
def branchCell (row : Row) : String :=
  jsTrim (aliasStr row [("Branch"), ("branch"), ("BRANCH")])

/-- Raw `Date` cell (no numeric default in the source chain; an absent
cell reads as the empty string). -/
def dateCell (row : Row) : String :=
  aliasStr row [("Date"), ("date"), ("DATE")]

/-- Raw quantity cell with default `1`. -/
def qtyVal (row : Row) : CellVal :=
  aliasNum row 1 [("Quantity"), ("QTY"), ("qty"), ("QUANTITY")]

/-- Raw price cell with default `0`. -/
def priceVal (row : Row) : CellVal :=
  aliasNum row 0 [("Price"), ("price"), ("PRICE")]

/-- Raw discount cell with default `0`. -/
def discountVal (row : Row) : CellVal :=
  aliasNum row 0 [("Discount"), ("Discount %"), ("discount"), ("DISCOUNT")]

/-- Raw amount cell with default `0`. -/
def amountVal (row : Row) : CellVal :=
  aliasNum row 0 [("Amount"), ("amount"), ("AMOUNT")]

/-- Sanitized quantity: `Number.isFinite(q) && q > 0 ? Math.round(q) : 1`. -/
def sanQty (row : Row) : ℚ :=
  match parseLooseNumberVal (qtyVal row) with
  | some q => if 0 < q then (jsRound q : ℚ) else 1
  | none => 1

/-- Sanitized price: `Number.isFinite(p) ? p : 0`. -/
def sanPrice (row : Row) : ℚ :=
  (parseLooseNumberVal (priceVal row)).getD 0

/-- Sanitized discount percentage: `Number.isFinite(d) ? d : 0`. -/
def sanDiscount (row : Row) : ℚ :=
  (parseLooseNumberVal (discountVal row)).getD 0

/-- `round2(price * qty * (1 - discount / 100))` over the sanitized
fields (`computedAmount_eq` below states it with the field operations). -/
def computedAmount (row : Row) : ℚ :=
  round2 (qMul (qMul (sanPrice row) (sanQty row)) (qSub 1 (qDivN (sanDiscount row) 100)))

/-- Final amount: the loosely parsed `Amount` cell when finite and
non-zero, else the computed amount. -/
def finalAmount (row : Row) : ℚ :=
  match parseLooseNumberVal (amountVal row) with
  | some a => if a ≠ 0 then a else computedAmount row
  | none => computedAmount row

/-- Category codes admitted by the importer. -/
def allowedCategories : List String := [("MHB"), ("MLP"), ("MSH"), ("MUM")]

/-- `extractCategoryFromProduct` of the importer revision under test:
positional extraction (characters 5, 8 and 9 of the upper-cased,
whitespace-free code) checked against the allowed set, then a
starts-with fallback, then a containment fallback, else empty. -/
def extractCategoryFromProduct (productName : String) : String :=
  if productName = "" || productName.data.length < 9 then ""
  else
    let up := (productName.data.map Char.toUpper).filter (fun c => !(isWsChar c))
    let byPos : Option String :=
      if 9 ≤ up.length then
        let extracted := String.mk [up.getD 4 ' ', up.getD 7 ' ', up.getD 8 ' ']
        if allowedCategories.contains extracted then some extracted else none
      else none
    match byPos with
    | some c => c
    | none =>
      match allowedCategories.find? (fun cat => cat.data.isPrefixOf up) with
      | some cat => cat
      | none =>
        match allowedCategories.find? (fun cat => hasSubstr up cat.data) with
        | some cat => cat
        | none => ""

/-- Validated sales record.  The nondeterministic `id` and `createdAt`
fields (wall clock, random suffix) are omitted. -/
structure SalesEntry where
  date : String
  upc : String
  name : String
  description : String
  qty : ℚ
  category : String
  price : ℚ
  discountPercent : ℚ
  amount : ℚ
  branch : String
deriving DecidableEq

/-- Entry built for a row whose day resolved to `d`; field for field the
object literal pushed by `importFromExcel` (minus `id`/`createdAt`). -/
def entryFor (baseYear baseMonth : ℤ) (row : Row) (d : ℕ) : SalesEntry :=
  { date := isoDate (addDays ⟨baseYear, baseMonth + 1, 1⟩ (d - 1)),
    upc := "", name := nameCell row, description := productCell row,
    qty := sanQty row, category := extractCategoryFromProduct (nameCell row),
    price := sanPrice row, discountPercent := sanDiscount row,
    amount := finalAmount row, branch := branchCell row }

/-- Error strings pushed by the required-field validation of one data
row: one message per missing field, in source order, each naming the
1-based spreadsheet row `index + 2`. -/
def missingErrs (index : ℕ) (row : Row) : List String :=
  (if nameCell row = "" then [("Row ") ++ Nat.repr (index + 2) ++ (": Missing name")] else []) ++
  (if productCell row = "" then [("Row ") ++ Nat.repr (index + 2) ++ (": Missing product")] else []) ++
  (if branchCell row = "" then [("Row ") ++ Nat.repr (index + 2) ++ (": Missing branch")] else [])

/-- Row mapper of `importFromExcel` for the data row at zero-based
`index`: zero or one entry plus the error strings appended for that row.
`baseMonth` is the zero-based month index (`Date.getMonth()`). -/
def processRow (baseYear baseMonth : ℤ) (index : ℕ) (row : Row) :
    Option SalesEntry × List String :=
  match parseDayNumber (dateCell row) with
  | none =>
    if jsTrim (dateCell row) ≠ "" then
      (none, [("Row ") ++ Nat.repr (index + 2) ++ (": Invalid Date value \"") ++
        jsTrim (dateCell row) ++ ("\" (skipped)")])
    else (none, [])
  | some dayNum =>
    if nameCell row = "" ∧ productCell row = "" ∧ branchCell row = "" then
      (none, [])
    else
      if nameCell row ≠ "" ∧ productCell row ≠ "" ∧ branchCell row ≠ "" then
        (some (entryFor baseYear baseMonth row dayNum), missingErrs index row)
      else (none, missingErrs index row)

/-- Structured result of an import call. -/
structure ImportResult where
  success : Bool
  data : List SalesEntry
  errors : List String
deriving DecidableEq

/-- Sequential row processing: entries in source order, errors
concatenated in source order. -/
def collectRows (baseYear baseMonth : ℤ) : ℕ → List Row → List SalesEntry × List String
  | _, [] => ([], [])
  | i, r :: rest =>
    let head := processRow baseYear baseMonth i r
    let tail := collectRows baseYear baseMonth (i + 1) rest
    ((match head.1 with
      | some e => e :: tail.1
      | none => tail.1), head.2 ++ tail.2)

/-- `importFromExcel` after the decode boundary: process every data row,
report success iff at least one entry was produced, and truncate the
error list to the first ten messages. -/
def importFromExcel (baseYear baseMonth : ℤ) (rows : List Row) : ImportResult :=
  let acc := collectRows baseYear baseMonth 0 rows
  { success := decide (acc.1 ≠ []), data := acc.1, errors := acc.2.take 10 }

/-- State of the local zustand store relevant to the batch importer. -/
structure LocalStore where
  entries : List SalesEntry
  isImporting : Bool
  progressVal : ℤ
deriving DecidableEq

/-- Batch size of both importers. -/
def batchSize : ℕ := 500

/-- `Math.ceil(n / 500)`, the number of batches for `n` records. -/
def totalBatchesFor (n : ℕ) : ℕ := (n + batchSize - 1) / batchSize

/-- `Math.round(k / total * 100)`, the progress percentage after `k` of
`total` batches (`progressPct_eq` below states it with the field
operations). -/
def progressPct (k total : ℕ) : ℤ :=
  jsRound (qMul (qDivN (k : ℚ) total) 100)

/-- Observable trace of one batch import call on the local store. -/
structure BatchTrace where
  commits : List (List SalesEntry)
  reports : List ℤ
  progressAfter : List ℤ
  importingAtCommit : List Bool
deriving DecidableEq

/-- Empty trace. -/
def emptyTrace : BatchTrace := ⟨[], [], [], []⟩

/-- Loop body of the local `addEntriesBatch`, expressed by structural
recursion on the number of remaining iterations (`r = total - i` for the
source `for` loop index `i`).  Each iteration commits one slice to the
store and publishes the progress percentage in the same state update;
the yield between batches suspends but changes no state and is not
modelled. -/
def batchLoop (ne : List SalesEntry) (total : ℕ) :
    ℕ → ℕ → LocalStore → LocalStore × BatchTrace
  | 0, _, st => (st, emptyTrace)
  | r + 1, i, st =>
    let batch := (ne.drop (i * batchSize)).take batchSize
    let pct := progressPct (i + 1) total
    let st2 : LocalStore :=
      { entries := batch ++ st.entries, isImporting := st.isImporting,
        progressVal := pct }
    let rest := batchLoop ne total r (i + 1) st2
    (rest.1,
      { commits := batch :: rest.2.commits,
        reports := pct :: rest.2.reports,
        progressAfter := pct :: rest.2.progressAfter,
        importingAtCommit := st.isImporting :: rest.2.importingAtCommit })

/-- `addEntriesBatch` of `useSalesStore`: early return on an empty input;
otherwise set the importing flag and zero progress, run every batch, then
clear the flag and pin progress to 100. -/
def addEntriesBatch (ne : List SalesEntry) (st : LocalStore) :
    LocalStore × BatchTrace :=
  if ne.isEmpty then (st, emptyTrace)
  else
    let total := totalBatchesFor ne.length
    let st0 : LocalStore :=
      { entries := st.entries, isImporting := true, progressVal := 0 }
    let run := batchLoop ne total total 0 st0
    ({ entries := run.1.entries, isImporting := false, progressVal := 100 },
      run.2)

/-- State of the cloud store relevant to the batch importer.  `db` is the
remote table content (in insertion order); `entries` is the local mirror. -/
structure CloudState where
  db : List SalesEntry
  entries : List SalesEntry
  isImporting : Bool
  progressVal : ℤ
  hasError : Bool
deriving DecidableEq

/-- Outcome of one cloud `addEntriesBatch` call: final state, whether the
promise rejected, the number of insert calls issued, and the progress
reports delivered to the callback. -/
structure CloudRun where
  db : List SalesEntry
  entries : List SalesEntry
  isImporting : Bool
  progressVal : ℤ
  hasError : Bool
  thrown : Bool
  attempts : ℕ
  reports : List ℤ
deriving DecidableEq

/-- Loop of the cloud `addEntriesBatch` inside its `try`/`catch`/`finally`.
`fails b` tells whether the insert call for batch `b` rejects (a rejected
insert persists nothing).  On a failure the `catch` records the error and
rethrows; the `finally` clears the importing flag and sets progress to 100
on both exits.  On success the accumulated inserted rows are prepended to
the local mirror. -/
def cloudLoop (fails : ℕ → Bool) (ne : List SalesEntry) (total : ℕ)
    (entries0 : List SalesEntry) :
    ℕ → ℕ → List SalesEntry → List SalesEntry → List ℤ → ℕ → CloudRun
  | 0, _, db, inserted, reports, attempts =>
    { db := db, entries := inserted ++ entries0, isImporting := false,
      progressVal := 100, hasError := false, thrown := false,
      attempts := attempts, reports := reports }
  | r + 1, i, db, inserted, reports, attempts =>
    let batch := (ne.drop (i * batchSize)).take batchSize
    if fails i then
      { db := db, entries := entries0, isImporting := false,
        progressVal := 100, hasError := true, thrown := true,
        attempts := attempts + 1, reports := reports }
    else
      cloudLoop fails ne total entries0 r (i + 1) (db ++ batch)
        (inserted ++ batch) (reports ++ [progressPct (i + 1) total])
        (attempts + 1)

/-- `addEntriesBatch` of `useCloudSalesStore`.  `hasUser` models the
authenticated-user guard.  An early return leaves the state untouched;
otherwise the importing flag is raised, progress reset, and the batches
run in sequence. -/
def cloudAddEntriesBatch (fails : ℕ → Bool) (hasUser : Bool)
    (ne : List SalesEntry) (st : CloudState) : CloudRun :=
  if !hasUser || ne.isEmpty then
    { db := st.db, entries := st.entries, isImporting := st.isImporting,
      progressVal := st.progressVal, hasError := st.hasError,
      thrown := false, attempts := 0, reports := [] }
  else
    cloudLoop fails ne (totalBatchesFor ne.length) st.entries
      (totalBatchesFor ne.length) 0 st.db [] [] 0

/-- Concrete row for the C1 witness: a fully populated data row. -/
def rowC1 : Row := fun k =>
  if k = "Name" then ("A") else
  if k = "Product" then ("P1") else
  if k = "Branch" then ("MHB") else
  if k = "QTY" then ("2") else
  if k = "Price" then ("100") else
  if k = "Date" then ("5") else ""

/-- Entry produced for `rowC1` with base month March 2024. -/
def eC1 : SalesEntry :=
  ⟨("2024-03-05"), "", ("A"), ("P1"), 2, "", 100, 0, 200, ("MHB")⟩

/-- Concrete row refuting C2 as stated: only `Name` filled, `Date`
empty. -/
def rowC2cex : Row := fun k => if k = "Name" then ("A") else ""

/-- Concrete row for the amended C2: only `Name` and a resolvable `Date`
filled. -/
def rowC2w : Row := fun k =>
  if k = "Name" then ("B") else
  if k = "Date" then ("5") else ""

/-- Concrete row refuting C3 as stated: blank triple with an unparseable
non-empty `Date`. -/
def rowC3cex : Row := fun k => if k = "Date" then ("abc") else ""

/-- Concrete all-blank row for the amended C3. -/
def rowC3w : Row := fun _ => ""

/-- Concrete row for the C4 witness: filled triple, unparseable `Date`. -/
def rowC4w : Row := fun k =>
  if k = "Name" then ("X") else
  if k = "Product" then ("P") else
  if k = "Branch" then ("B") else
  if k = "Date" then ("xx") else ""

/-- Concrete row for the C5 witness: day 5 under base month March 2024. -/
def rowC5w : Row := fun k =>
  if k = "Name" then ("C") else
  if k = "Product" then ("P2") else
  if k = "Branch" then ("MLP") else
  if k = "Date" then ("5") else ""

/-- Entry produced for `rowC5w` with base month March 2024. -/
def eC5 : SalesEntry :=
  ⟨("2024-03-05"), "", ("C"), ("P2"), 1, "", 0, 0, 0, ("MLP")⟩

/-- Concrete row for the C10 witness: filled triple, absent `Date`. -/
def rowC10w : Row := fun k =>
  if k = "Name" then ("N") else
  if k = "Product" then ("P") else
  if k = "Branch" then ("B") else ""

/-- Concrete entry for the C6 witness. -/
def entryC6 : SalesEntry :=
  ⟨("2024-03-01"), "", ("N6"), ("D6"), 1, "", 0, 0, 0, ("B6")⟩

/-- Concrete entry for the C7 witness. -/
def entryC7 : SalesEntry :=
  ⟨("2024-03-01"), "", ("N7"), ("D7"), 1, "", 0, 0, 0, ("B7")⟩

/-- Concrete entry for the C8 witness. -/
def entryC8 : SalesEntry :=
  ⟨("2024-03-01"), "", ("N8"), ("D8"), 1, "", 0, 0, 0, ("B8")⟩

/-- Concrete entry for the C8 counterexample. -/
def entryC8x : SalesEntry :=
  ⟨("2024-03-01"), "", ("N8x"), ("D8x"), 1, "", 0, 0, 0, ("B8x")⟩

theorem qAdd_eq (a b : ℚ) : qAdd a b = a + b := by
  rw [qAdd, Rat.mkRat_eq_divInt, Rat.divInt_eq_div]
  have ha : ((a.den : ℚ)) ≠ 0 := by exact_mod_cast a.den_nz
  have hb : ((b.den : ℚ)) ≠ 0 := by exact_mod_cast b.den_nz
  push_cast
  conv_rhs => rw [← Rat.num_div_den a, ← Rat.num_div_den b, div_add_div _ _ ha hb]
  ring_nf

theorem qMul_eq (a b : ℚ) : qMul a b = a * b := by
  rw [qMul, Rat.mkRat_eq_divInt, Rat.divInt_eq_div]
  have ha : ((a.den : ℚ)) ≠ 0 := by exact_mod_cast a.den_nz
  have hb : ((b.den : ℚ)) ≠ 0 := by exact_mod_cast b.den_nz
  push_cast
  conv_rhs => rw [← Rat.num_div_den a, ← Rat.num_div_den b]
  field_simp

theorem qSub_eq (a b : ℚ) : qSub a b = a - b := by
  rw [qSub, Rat.mkRat_eq_divInt, Rat.divInt_eq_div]
  have ha : ((a.den : ℚ)) ≠ 0 := by exact_mod_cast a.den_nz
  have hb : ((b.den : ℚ)) ≠ 0 := by exact_mod_cast b.den_nz
  push_cast
  conv_rhs => rw [← Rat.num_div_den a, ← Rat.num_div_den b, div_sub_div _ _ ha hb]
  ring_nf

theorem qDivN_eq (a : ℚ) (n : ℕ) (h : n ≠ 0) : qDivN a n = a / (n : ℚ) := by
  rw [qDivN, Rat.mkRat_eq_divInt, Rat.divInt_eq_div]
  have ha : ((a.den : ℚ)) ≠ 0 := by exact_mod_cast a.den_nz
  have hn : ((n : ℚ)) ≠ 0 := by exact_mod_cast h
  push_cast
  conv_rhs => rw [← Rat.num_div_den a]
  field_simp

theorem jsRound_eq (q : ℚ) : jsRound q = ⌊q + 1 / 2⌋ := by
  rw [jsRound, qAdd_eq, Rat.mkRat_eq_divInt, Rat.divInt_eq_div]
  norm_num

theorem round2_eq (q : ℚ) : round2 q = (jsRound (q * 100) : ℚ) / 100 := by
  rw [round2, qMul_eq, Rat.mkRat_eq_divInt, Rat.divInt_eq_div]
  norm_num

theorem computedAmount_eq (row : Row) :
    computedAmount row =
      round2 (sanPrice row * sanQty row * (1 - sanDiscount row / 100)) := by
  rw [computedAmount, qMul_eq, qMul_eq, qSub_eq, qDivN_eq _ _ (by norm_num)]
  norm_num

theorem progressPct_eq (k total : ℕ) (h : total ≠ 0) :
    progressPct k total = ⌊(k : ℚ) / (total : ℚ) * 100 + 1 / 2⌋ := by
  rw [progressPct, jsRound_eq, qMul_eq, qDivN_eq _ _ h]

theorem parseDayNumber_of_trim_empty (s : String) (h : jsTrim s = "") :
    parseDayNumber s = none := by
  unfold parseDayNumber
  rw [h]
  simp

theorem processRow_some (y m : ℤ) (i : ℕ) (row : Row) (e : SalesEntry)
    (errs : List String) (h : processRow y m i row = (some e, errs)) :
    ∃ d, parseDayNumber (dateCell row) = some d ∧ e = entryFor y m row d ∧
      errs = [] ∧ nameCell row ≠ "" ∧ productCell row ≠ "" ∧ branchCell row ≠ "" := by
  unfold processRow at h
  split at h
  case h_1 heq =>
    split at h
    · exact absurd h (by simp)
    · exact absurd h (by simp)
  case h_2 d heq =>
    split at h
    · exact absurd h (by simp)
    · split at h
      case isTrue hall =>
        injection h with h1 h2
        injection h1 with h1
        rw [missingErrs, if_neg hall.1, if_neg hall.2.1, if_neg hall.2.2] at h2
        simp only [List.append_nil, List.nil_append] at h2
        exact ⟨d, heq, h1.symm, h2.symm, hall.1, hall.2.1, hall.2.2⟩
      case isFalse => exact absurd h (by simp)

theorem batchLoop_commits_length (ne : List SalesEntry) (total : ℕ) :
    ∀ r i st, ((batchLoop ne total r i st).2.commits).length = r := by
  intro r
  induction r with
  | zero => intro i st; rfl
  | succ n ih =>
    intro i st
    simp only [batchLoop, List.length_cons]
    rw [ih]

theorem batchLoop_reports (ne : List SalesEntry) (total : ℕ) :
    ∀ r i st, (batchLoop ne total r i st).2.reports =
      (List.range' (i + 1) r).map (fun k => progressPct k total) := by
  intro r
  induction r with
  | zero => intro i st; rfl
  | succ n ih =>
    intro i st
    rw [List.range'_succ]
    simp only [batchLoop, List.map_cons]
    rw [ih]

theorem batchLoop_progressAfter (ne : List SalesEntry) (total : ℕ) :
    ∀ r i st, (batchLoop ne total r i st).2.progressAfter =
      (batchLoop ne total r i st).2.reports := by
  intro r
  induction r with
  | zero => intro i st; rfl
  | succ n ih =>
    intro i st
    simp only [batchLoop]
    rw [ih]

theorem batchLoop_importingAtCommit (ne : List SalesEntry) (total : ℕ) :
    ∀ r i st, (batchLoop ne total r i st).2.importingAtCommit =
      List.replicate r st.isImporting := by
  intro r
  induction r with
  | zero => intro i st; rfl
  | succ n ih =>
    intro i st
    simp only [batchLoop, List.replicate_succ]
    rw [ih]

theorem cloudLoop_isImporting (fails : ℕ → Bool) (ne : List SalesEntry)
    (total : ℕ) (e0 : List SalesEntry) :
    ∀ r i db ins reps att,
      (cloudLoop fails ne total e0 r i db ins reps att).isImporting = false := by
  intro r
  induction r with
  | zero => intro i db ins reps att; rfl
  | succ n ih =>
    intro i db ins reps att
    simp only [cloudLoop]
    split
    · rfl
    · exact ih (i + 1) _ _ _ _

theorem chunk_take_concat (ne : List SalesEntry) (i b : ℕ) :
    (ne.drop (i * batchSize)).take batchSize ++
      (ne.drop ((i + 1) * batchSize)).take (batchSize * b) =
    (ne.drop (i * batchSize)).take (batchSize * (b + 1)) := by
  rw [show (i + 1) * batchSize = i * batchSize + batchSize by ring, ← List.drop_drop,
    show batchSize * (b + 1) = batchSize + batchSize * b by ring, List.take_add]

theorem cloudLoop_fail (fails : ℕ → Bool) (ne : List SalesEntry) (total : ℕ)
    (e0 : List SalesEntry) :
    ∀ b r i db ins reps att, b < r → fails (i + b) = true →
      (∀ j, j < b → fails (i + j) = false) →
      (cloudLoop fails ne total e0 r i db ins reps att).attempts = att + b + 1 ∧
      (cloudLoop fails ne total e0 r i db ins reps att).thrown = true ∧
      (cloudLoop fails ne total e0 r i db ins reps att).db =
        db ++ (ne.drop (i * batchSize)).take (batchSize * b) := by
  intro b
  induction b with
  | zero =>
    intro r i db ins reps att hr hf _
    cases r with
    | zero => omega
    | succ n =>
      simp only [cloudLoop]
      rw [if_pos (by simpa using hf)]
      simp
  | succ m ih =>
    intro r i db ins reps att hr hf hprev
    cases r with
    | zero => omega
    | succ n =>
      simp only [cloudLoop]
      have h0 : fails i = false := by simpa using hprev 0 (Nat.succ_pos m)
      rw [if_neg (by simp [h0])]
      have hf2 : fails ((i + 1) + m) = true := by
        have : (i + 1) + m = i + (m + 1) := by omega
        rw [this]; exact hf
      have hprev2 : ∀ j, j < m → fails ((i + 1) + j) = false := by
        intro j hj
        have : (i + 1) + j = i + (j + 1) := by omega
        rw [this]; exact hprev (j + 1) (by omega)
      obtain ⟨ha, ht, hdb⟩ := ih n (i + 1) (db ++ (ne.drop (i * batchSize)).take batchSize)
        (ins ++ (ne.drop (i * batchSize)).take batchSize)
        (reps ++ [progressPct (i + 1) total]) (att + 1) (by omega) hf2 hprev2
      refine ⟨by rw [ha]; omega, ht, ?_⟩
      rw [hdb, List.append_assoc, chunk_take_concat]

/-- Claim C1: every imported row that yields a SalesEntry has
`amount` equal to the loosely parsed `Amount` cell whenever that value is
finite (`some`) and non-zero, and otherwise equal to
`round2(price * qty * (1 - discountPercent / 100))` over the sanitized
price, quantity and discount of the same row. -/
theorem C1_amount (y m : ℤ) (i : ℕ) (row : Row) (e : SalesEntry)
    (errs : List String) (h : processRow y m i row = (some e, errs)) :
    e.amount =
      match parseLooseNumberVal (amountVal row) with
      | some a =>
        if a ≠ 0 then a
        else round2 (sanPrice row * sanQty row * (1 - sanDiscount row / 100))
      | none => round2 (sanPrice row * sanQty row * (1 - sanDiscount row / 100)) := by
  obtain ⟨d, _, he, _⟩ := processRow_some y m i row e errs h
  rw [he]
  show finalAmount row = _
  simp only [finalAmount, computedAmount_eq]

/-- Witness for C1: the fully populated row `rowC1` (no explicit amount,
price 100, qty 2, no discount) yields the computed amount. -/
theorem C1_amount_w : eC1.amount = computedAmount rowC1 := by
  have h := C1_amount 2024 2 0 rowC1 eC1 [] (by decide)
  rw [h]
  simp only [← computedAmount_eq]
  decide

/-- Counterexample to claim C2 as stated: the row `rowC2cex` has `Name`
non-empty but `Product` and `Branch` empty, so the claim demands one
error per missing field (two errors); because its `Date` cell is empty
the importer instead silently drops the row with no error at all. -/
theorem C2_cex :
    (processRow 2024 2 0 rowC2cex).1 = none ∧
    (processRow 2024 2 0 rowC2cex).2 = [] ∧
    ¬ (processRow 2024 2 0 rowC2cex).2.length = 2 := by decide

/-- Claim C2 (amended): provided the row's day resolves, a data row with
at least one but not all of name, product, branch non-empty yields no
entry and exactly one error per missing field, each naming spreadsheet
row `i + 2`; and unconditionally a row contributes an entry only when
name, product and branch are all non-empty. -/
theorem C2_missing_fields (y m : ℤ) (i : ℕ) (row : Row) :
    (∀ d, parseDayNumber (dateCell row) = some d →
      ¬ (nameCell row ≠ "" ∧ productCell row ≠ "" ∧ branchCell row ≠ "") →
      (nameCell row ≠ "" ∨ productCell row ≠ "" ∨ branchCell row ≠ "") →
      processRow y m i row =
        (none,
          (if nameCell row = "" then [("Row ") ++ Nat.repr (i + 2) ++ (": Missing name")] else []) ++
          (if productCell row = "" then [("Row ") ++ Nat.repr (i + 2) ++ (": Missing product")] else []) ++
          (if branchCell row = "" then [("Row ") ++ Nat.repr (i + 2) ++ (": Missing branch")] else []))) ∧
    (∀ e errs, processRow y m i row = (some e, errs) →
      nameCell row ≠ "" ∧ productCell row ≠ "" ∧ branchCell row ≠ "") := by
  constructor
  · intro d hd hnall hone
    have hblank : ¬ (nameCell row = "" ∧ productCell row = "" ∧ branchCell row = "") := by
      rcases hone with h1 | h1 | h1 <;> exact fun hall => h1 (by tauto)
    simp only [processRow, hd]
    rw [if_neg hblank, if_neg hnall]
    rfl
  · intro e errs h
    obtain ⟨d, _, _, _, hn, hp, hb⟩ := processRow_some y m i row e errs h
    exact ⟨hn, hp, hb⟩

/-- Witness for the amended C2: a row with only `Name` and a resolvable
`Date` yields no entry and the two missing-field errors for row 2. -/
theorem C2_missing_fields_w :
    processRow 2024 2 0 rowC2w =
      (none, [("Row 2: Missing product"), ("Row 2: Missing branch")]) := by
  have h := (C2_missing_fields 2024 2 0 rowC2w).1 5 (by decide) (by decide) (by decide)
  rw [h]
  decide

/-- Counterexample to claim C3 as stated: the row `rowC3cex` has an
entirely blank name/product/branch triple yet its unparseable non-empty
`Date` cell makes the importer emit an invalid-date error, so the row is
not skipped silently "regardless of the Date cell". -/
theorem C3_cex :
    processRow 2024 2 0 rowC3cex =
      (none, [("Row 2: Invalid Date value \"abc\" (skipped)")]) ∧
    ¬ (processRow 2024 2 0 rowC3cex).2 = [] := by decide

/-- Claim C3 (amended): a row whose name, product and branch are all
empty, and whose `Date` cell is empty or resolves to a valid day, yields
neither an entry nor an error. -/
theorem C3_blank_skip (y m : ℤ) (i : ℕ) (row : Row)
    (h1 : nameCell row = "") (h2 : productCell row = "") (h3 : branchCell row = "")
    (h4 : jsTrim (dateCell row) = "" ∨ (parseDayNumber (dateCell row)).isSome = true) :
    processRow y m i row = (none, []) := by
  cases hd : parseDayNumber (dateCell row) with
  | none =>
    have ht : jsTrim (dateCell row) = "" := by
      rcases h4 with h | h
      · exact h
      · rw [hd] at h; simp at h
    simp only [processRow, hd]
    rw [if_neg (by simp [ht])]
  | some d =>
    simp only [processRow, hd]
    rw [if_pos ⟨h1, h2, h3⟩]

/-- Witness for the amended C3: the all-blank row is silently skipped. -/
theorem C3_blank_skip_w : processRow 2024 2 0 rowC3w = (none, []) :=
  C3_blank_skip 2024 2 0 rowC3w (by decide) (by decide) (by decide) (Or.inl (by decide))

/-- Claim C4: a row with a non-empty `Date` cell whose day resolution
fails produces exactly one error of the form
`Row N: Invalid Date value "..." (skipped)` and no entry. -/
theorem C4_invalid_date (y m : ℤ) (i : ℕ) (row : Row)
    (h1 : parseDayNumber (dateCell row) = none)
    (h2 : jsTrim (dateCell row) ≠ "") :
    processRow y m i row =
      (none, [("Row ") ++ Nat.repr (i + 2) ++ (": Invalid Date value \"") ++
        jsTrim (dateCell row) ++ ("\" (skipped)")]) := by
  simp only [processRow, h1]
  rw [if_pos h2]

/-- Witness for C4: a filled row whose `Date` cell reads `xx`. -/
theorem C4_invalid_date_w :
    processRow 2024 2 0 rowC4w =
      (none, [("Row 2: Invalid Date value \"xx\" (skipped)")]) := by
  have h := C4_invalid_date 2024 2 0 rowC4w (by decide) (by decide)
  rw [h]
  decide

/-- Claim C5: when the row's day resolves to `d`, the produced entry's
date is the ISO serialisation of the first day of the base month advanced
by `d - 1` days (`m` is the zero-based month index of the caller's base
date). -/
theorem C5_resolved_date (y m : ℤ) (i : ℕ) (row : Row) (d : ℕ) (e : SalesEntry)
    (errs : List String) (hd : parseDayNumber (dateCell row) = some d)
    (he : processRow y m i row = (some e, errs)) :
    e.date = isoDate (addDays ⟨y, m + 1, 1⟩ (d - 1)) := by
  obtain ⟨d2, hd2, he2, _⟩ := processRow_some y m i row e errs he
  rw [hd] at hd2
  injection hd2 with hdd
  rw [he2, ← hdd]
  rfl

/-- Witness for C5: base month March 2024 and day 5 give `2024-03-05`. -/
theorem C5_resolved_date_w :
    eC5.date = isoDate (addDays ⟨2024, 2 + 1, 1⟩ (5 - 1)) ∧
    isoDate (addDays ⟨2024, 2 + 1, 1⟩ (5 - 1)) = ("2024-03-05") := by
  refine ⟨?_, by decide⟩
  exact C5_resolved_date 2024 2 0 rowC5w 5 eC5 [] (by decide) (by decide)

/-- Claim C9: the loose parser's documented values, with `none` standing
for `NaN`, and pass-through of numeric inputs. -/
theorem C9_loose_values :
    parseLooseNumber ("₱1,200.00") = some 1200 ∧
    parseLooseNumber ("50%") = some 50 ∧
    parseLooseNumber ("(123.45)") = some (mkRat (-12345) 100) ∧
    (mkRat (-12345) 100 : ℚ) = -123.45 ∧
    parseLooseNumber ("abc") = none ∧
    ∀ q : ℚ, parseLooseNumberVal (CellVal.num q) = some q :=
  ⟨by decide, by decide, by decide,
    by rw [Rat.mkRat_eq_divInt, Rat.divInt_eq_div]; norm_num,
    by decide, fun _ => rfl⟩

/-- Claim C10: a row whose `Date` cell is empty or absent is silently
dropped: no entry and no error, whatever the other cells hold. -/
theorem C10_empty_date (y m : ℤ) (i : ℕ) (row : Row)
    (h : jsTrim (dateCell row) = "") :
    processRow y m i row = (none, []) := by
  simp only [processRow, parseDayNumber_of_trim_empty (dateCell row) h]
  rw [if_neg (by simp [h])]

/-- Witness for C10: a fully populated row with an empty `Date` cell is
dropped without an error. -/
theorem C10_empty_date_w : processRow 2024 2 0 rowC10w = (none, []) :=
  C10_empty_date 2024 2 0 rowC10w (by decide)

theorem totalBatchesFor_pos (n : ℕ) (h : n ≠ 0) : totalBatchesFor n ≠ 0 := by
  simp only [totalBatchesFor, batchSize]
  omega

/-- Claim C6: for a non-empty input of `N` records and batch size 500,
the local batch importer performs exactly `⌈N / 500⌉` store commits,
reports `round(k / totalBatches * 100)` after the `k`-th batch both via
the callback and via the observable progress value, and ends with
progress exactly 100. -/
theorem C6_batch_progress (ne : List SalesEntry) (st : LocalStore) (h : ne ≠ []) :
    ((addEntriesBatch ne st).2.commits).length = totalBatchesFor ne.length ∧
    (addEntriesBatch ne st).2.reports =
      (List.range' 1 (totalBatchesFor ne.length)).map
        (fun k : ℕ => ⌊(k : ℚ) / ((totalBatchesFor ne.length : ℕ) : ℚ) * 100 + 1 / 2⌋) ∧
    (addEntriesBatch ne st).2.progressAfter = (addEntriesBatch ne st).2.reports ∧
    (addEntriesBatch ne st).1.progressVal = 100 ∧
    (addEntriesBatch ne st).1.isImporting = false := by
  have hne : ne.isEmpty = false := List.isEmpty_eq_false.mpr h
  have htot : totalBatchesFor ne.length ≠ 0 :=
    totalBatchesFor_pos _ (fun hl => h (List.length_eq_zero.mp hl))
  simp only [addEntriesBatch, hne, Bool.false_eq_true, if_false]
  refine ⟨batchLoop_commits_length ne _ _ 0 _, ?_, batchLoop_progressAfter ne _ _ 0 _,
    trivial, trivial⟩
  rw [batchLoop_reports]
  simp only [Nat.zero_add]
  exact List.map_congr_left (fun k _ => progressPct_eq k _ htot)

/-- Witness for C6: one record gives one commit, the progress trace
`[100]`, and a cleared importing flag. -/
theorem C6_batch_progress_w :
    ((addEntriesBatch [entryC6] ⟨[], false, 0⟩).2.commits).length = totalBatchesFor 1 ∧
    (addEntriesBatch [entryC6] ⟨[], false, 0⟩).2.progressAfter = [100] ∧
    (addEntriesBatch [entryC6] ⟨[], false, 0⟩).1.progressVal = 100 ∧
    (addEntriesBatch [entryC6] ⟨[], false, 0⟩).1.isImporting = false := by
  obtain ⟨h1, _, _, h4, h5⟩ := C6_batch_progress [entryC6] ⟨[], false, 0⟩ (by decide)
  exact ⟨h1, by decide, h4, h5⟩

/-- Claim C7: if the insert of batch `k` (zero-based) rejects while all
earlier inserts succeed, the cloud importer issues exactly `k + 1`
insert calls (no later batch is attempted), rethrows the failure, and
the rows of batches `0 .. k-1` stay persisted with no rollback. -/
theorem C7_batch_failure (fails : ℕ → Bool) (ne : List SalesEntry) (st : CloudState)
    (k : ℕ) (h1 : ne ≠ []) (h2 : k < totalBatchesFor ne.length)
    (h3 : fails k = true) (h4 : ∀ j, j < k → fails j = false) :
    (cloudAddEntriesBatch fails true ne st).attempts = k + 1 ∧
    (cloudAddEntriesBatch fails true ne st).thrown = true ∧
    (cloudAddEntriesBatch fails true ne st).db = st.db ++ ne.take (batchSize * k) := by
  have hne : ne.isEmpty = false := List.isEmpty_eq_false.mpr h1
  simp only [cloudAddEntriesBatch, hne, Bool.not_true, Bool.false_or, Bool.false_eq_true,
    if_false]
  obtain ⟨ha, ht, hdb⟩ := cloudLoop_fail fails ne (totalBatchesFor ne.length) st.entries k
    (totalBatchesFor ne.length) 0 st.db [] [] 0 h2 (by simpa using h3)
    (fun j hj => by simpa using h4 j hj)
  refine ⟨by rw [ha]; omega, ht, ?_⟩
  rw [hdb]
  simp

/-- Witness for C7: a single batch whose insert rejects gives one
attempt, a rethrown error, and an unchanged remote table. -/
theorem C7_batch_failure_w :
    (cloudAddEntriesBatch (fun _ => true) true [entryC7] ⟨[], [], false, 0, false⟩).attempts = 1 ∧
    (cloudAddEntriesBatch (fun _ => true) true [entryC7] ⟨[], [], false, 0, false⟩).thrown = true ∧
    (cloudAddEntriesBatch (fun _ => true) true [entryC7] ⟨[], [], false, 0, false⟩).db = [] := by
  obtain ⟨h1, h2, h3⟩ := C7_batch_failure (fun _ => true) [entryC7] ⟨[], [], false, 0, false⟩ 0
    (by decide) (by decide) rfl (fun j hj => absurd hj (Nat.not_lt_zero j))
  exact ⟨h1, h2, h3.trans (by decide)⟩

/-- Counterexample to claim C8 as stated: a local-store import call made
while `isImporting` is already `true` is neither rejected nor queued — it
behaves exactly as with the flag clear and performs its commit at once. -/
theorem C8_cex :
    addEntriesBatch [entryC8x] ⟨[], true, 0⟩ = addEntriesBatch [entryC8x] ⟨[], false, 0⟩ ∧
    (addEntriesBatch [entryC8x] ⟨[], true, 0⟩).2.commits = [[entryC8x]] := by decide

/-- Claim C8 (amended): there is no concurrency guard — the importer's
behaviour is independent of the `isImporting` flag at entry, so a second
call is neither rejected nor queued; the flag lifecycle half of the
claim holds: the flag is set before the first batch commits, stays set
at every commit, and is cleared after the last batch on success (local
store) and on both the success and the failure exit (cloud store). -/
theorem C8_flag_lifecycle :
    (∀ (ne E : List SalesEntry) (p : ℤ) (b : Bool), ne ≠ [] →
      addEntriesBatch ne ⟨E, b, p⟩ = addEntriesBatch ne ⟨E, true, p⟩) ∧
    (∀ (ne : List SalesEntry) (st : LocalStore), ne ≠ [] →
      (addEntriesBatch ne st).2.importingAtCommit =
        List.replicate (totalBatchesFor ne.length) true ∧
      (addEntriesBatch ne st).1.isImporting = false) ∧
    (∀ (fails : ℕ → Bool) (ne : List SalesEntry) (st : CloudState), ne ≠ [] →
      (cloudAddEntriesBatch fails true ne st).isImporting = false) := by
  refine ⟨?_, ?_, ?_⟩
  · intro ne E p b h
    have hne : ne.isEmpty = false := List.isEmpty_eq_false.mpr h
    simp only [addEntriesBatch, hne, Bool.false_eq_true, if_false]
  · intro ne st h
    have hne : ne.isEmpty = false := List.isEmpty_eq_false.mpr h
    simp only [addEntriesBatch, hne, Bool.false_eq_true, if_false]
    exact ⟨batchLoop_importingAtCommit ne _ _ 0 _, trivial⟩
  · intro fails ne st h
    have hne : ne.isEmpty = false := List.isEmpty_eq_false.mpr h
    simp only [cloudAddEntriesBatch, hne, Bool.not_true, Bool.false_or, Bool.false_eq_true,
      if_false]
    exact cloudLoop_isImporting fails ne _ _ _ 0 _ _ _ _

/-- Witness for the amended C8 at concrete single-record runs. -/
theorem C8_flag_lifecycle_w :
    addEntriesBatch [entryC8] ⟨[], false, 5⟩ = addEntriesBatch [entryC8] ⟨[], true, 5⟩ ∧
    (addEntriesBatch [entryC8] ⟨[], false, 5⟩).2.importingAtCommit =
      List.replicate (totalBatchesFor 1) true ∧
    (addEntriesBatch [entryC8] ⟨[], false, 5⟩).1.isImporting = false ∧
    (cloudAddEntriesBatch (fun _ => false) true [entryC8] ⟨[], [], false, 0, false⟩).isImporting
      = false := by
  obtain ⟨ha, hb, hc⟩ := C8_flag_lifecycle
  exact ⟨ha [entryC8] [] 5 false (by decide),
    (hb [entryC8] ⟨[], false, 5⟩ (by decide)).1,
    (hb [entryC8] ⟨[], false, 5⟩ (by decide)).2,
    hc (fun _ => false) [entryC8] ⟨[], [], false, 0, false⟩ (by decide)⟩
